import Mathlib

/-!
Verification of the frame-loop / camera / instance subsystems of the
rust-simulation-engine repository, shallowly embedded in Lean 4.

Real-valued `f32` arithmetic is idealized as exact arithmetic: rational (`ℚ`)
where every quantity the claims touch is rational, real (`ℝ`) where the code
computes square roots (vector magnitudes) or trigonometric functions.
-/

/- ## Matrices (cgmath `Matrix4<f32>`, idealized over ℚ)

`Mat4 i j` is the entry in row `i`, column `j` of the mathematical matrix.
cgmath's `Matrix4::new` lists entries column by column; the constants below
are written row by row, transposing the source literal accordingly. -/

abbrev Mat4 : Type := Fin 4 → Fin 4 → ℚ

/-- cgmath matrix multiplication: `(A.mul B) i j = Σ_k A i k * B k j`. -/
def Mat4.mul (A B : Mat4) : Mat4 := fun i j =>
  A i 0 * B 0 j + A i 1 * B 1 j + A i 2 * B 2 j + A i 3 * B 3 j

/-- `OPENGL_TO_WGPU_MATRIX` from `src/window/camera/mod.rs` (the identical
constant is re-declared in `src/window/camera/uniform.rs`).  The source lists
the sixteen scalars column-major: columns (1,0,0,0), (0,1,0,0), (0,0,0.5,0),
(0,0,0.5,1); as a row-major mathematical matrix this is the depth remap
`z ↦ 0.5·z + 0.5·w`. -/
def OPENGL_TO_WGPU_MATRIX : Mat4 :=
  ![![1, 0, 0, 0],
    ![0, 1, 0, 0],
    ![0, 0, 1/2, 1/2],
    ![0, 0, 0, 1]]

/-- `Camera::build_view_projection_matrix` (src/window/camera/mod.rs):
`OPENGL_TO_WGPU_MATRIX * projection_matrix * view_matrix`, where
`projection_matrix = perspective(Deg(fov_y), aspect, z_near, z_far)` and
`view_matrix = Matrix4::look_at_rh(eye, target, up)` are produced by the
cgmath library; they enter here as explicit matrix arguments. -/
def build_view_projection_matrix (projection_matrix view_matrix : Mat4) : Mat4 :=
  (OPENGL_TO_WGPU_MATRIX.mul projection_matrix).mul view_matrix

/-- `CameraUniform::update_view_projection_matrix` (src/window/camera/uniform.rs):
the matrix stored into the uniform is
`OPENGL_TO_WGPU_MATRIX * camera.build_view_projection_matrix()`. -/
def update_view_projection_matrix (projection_matrix view_matrix : Mat4) : Mat4 :=
  OPENGL_TO_WGPU_MATRIX.mul (build_view_projection_matrix projection_matrix view_matrix)

/-- The cgmath matrix `perspective(Deg(90), 1, 1, 3)`: with `fovy = 90°` the
focal factor `cot(fovy/2) = 1` is exact, `aspect = 1`, `near = 1`, `far = 3`,
so every entry is rational: rows (1,0,0,0), (0,1,0,0),
(0,0,(far+near)/(near-far), 2·far·near/(near-far)) = (0,0,-2,-3), (0,0,-1,0). -/
def perspective_90_1_1_3 : Mat4 :=
  ![![1, 0, 0, 0],
    ![0, 1, 0, 0],
    ![0, 0, -2, -3],
    ![0, 0, -1, 0]]

/-- The cgmath matrix `look_at_rh((0,0,2), (0,0,0), (0,1,0))`: the derived
basis f = (0,0,-1), s = (1,0,0), u = (0,1,0) is exactly rational, giving rows
(1,0,0,0), (0,1,0,0), (0,0,1,-2), (0,0,0,1). -/
def look_at_002_origin_y : Mat4 :=
  ![![1, 0, 0, 0],
    ![0, 1, 0, 0],
    ![0, 0, 1, -2],
    ![0, 0, 0, 1]]

/- ## Timestamps and frames (src/time.rs, src/window/frame.rs)

The platform clock is made explicit: every operation that reads the clock in
the source takes the current time `now : ℚ` (seconds) as an argument. -/

/-- `Timestamp` (src/time.rs): a captured instant plus the `is_empty`
sentinel flag. -/
structure Timestamp where
  start : ℚ
  is_empty : Bool
deriving DecidableEq

/-- `Timestamp::now()`: captures the current clock value, `is_empty = false`. -/
def Timestamp.now (t : ℚ) : Timestamp := ⟨t, false⟩

/-- `Timestamp::empty()`: `is_empty = true`; the source also stores
`Instant::now()` in `start`, which is never read while `is_empty` holds. -/
def Timestamp.empty (t : ℚ) : Timestamp := ⟨t, true⟩

/-- `Timestamp::elapsed()`: `0.0` on an empty timestamp, otherwise the time
since capture. -/
def Timestamp.elapsed (self : Timestamp) (now : ℚ) : ℚ :=
  if self.is_empty then 0 else now - self.start

/-- `Timestamp::delta(other)`: `0.0` if either operand is empty, otherwise
`self.elapsed() - other.elapsed()`. -/
def Timestamp.delta (self other : Timestamp) (now : ℚ) : ℚ :=
  if self.is_empty || other.is_empty then 0
  else self.elapsed now - other.elapsed now

/-- `Frame` (src/window/frame.rs): start and end timestamps. -/
structure Frame where
  start_time : Timestamp
  end_time : Timestamp
deriving DecidableEq

/-- `Frame::new()`: `start_time = now()`, `end_time = empty()`. -/
def Frame.new (now : ℚ) : Frame := ⟨Timestamp.now now, Timestamp.empty now⟩

/-- `Frame::frame_time_s()`: `start_time.delta(&end_time)`. -/
def Frame.frame_time_s (self : Frame) (now : ℚ) : ℚ :=
  self.start_time.delta self.end_time now

/-- `Frame::delta_time()`: `start_time.elapsed()`. -/
def Frame.delta_time (self : Frame) (now : ℚ) : ℚ :=
  self.start_time.elapsed now

/- ## An exact model of the `f32` values produced by divisions

The frame-rate computations divide by sums that can be zero, producing IEEE
infinities and NaNs.  `FVal` is the value domain: a finite rational, one of
the two infinities, or NaN (zero is unsigned in this idealization; no claim
distinguishes `-0.0`). -/

inductive FVal where
  | num : ℚ → FVal
  | nan : FVal
  | inf : FVal
  | negInf : FVal
deriving DecidableEq

/-- IEEE-754 addition on `FVal` (finite values add exactly). -/
def FVal.add : FVal → FVal → FVal
  | .nan, _ => .nan
  | _, .nan => .nan
  | .inf, .negInf => .nan
  | .negInf, .inf => .nan
  | .inf, _ => .inf
  | _, .inf => .inf
  | .negInf, _ => .negInf
  | _, .negInf => .negInf
  | .num a, .num b => .num (a + b)

/-- IEEE-754 division on `FVal`: `0/0 = NaN`, `x/0 = ±∞` for finite `x ≠ 0`,
`±∞/±∞ = NaN`, finite`/±∞ = 0`. -/
def FVal.div : FVal → FVal → FVal
  | .nan, _ => .nan
  | _, .nan => .nan
  | .inf, .inf => .nan
  | .inf, .negInf => .nan
  | .negInf, .inf => .nan
  | .negInf, .negInf => .nan
  | .inf, .num b => if b < 0 then .negInf else .inf
  | .negInf, .num b => if b < 0 then .inf else .negInf
  | .num _, .inf => .num 0
  | .num _, .negInf => .num 0
  | .num a, .num b =>
      if b = 0 then (if a = 0 then .nan else if 0 < a then .inf else .negInf)
      else .num (a / b)

/-- `f32::round` as used by the source: round half away from zero. -/
def rustRound (q : ℚ) : ℤ :=
  if 0 ≤ q then ⌊q + 1/2⌋ else ⌈q - 1/2⌉

/- ## Frame history and instantaneous / averaged frame rate
(src/window/context.rs) -/

def FRAME_BUFFER_LENGTH : ℕ := 128

def FRAME_RATE_BUFFER_LENGTH : ℕ := 128

/-- `Context::frame_rate()`: the number of buffered frames divided by the
fold-summed frame times after `(sum * 100.0).round() / 100.0`. -/
def Context.frame_rate (frame_buffer : List Frame) (now : ℚ) : FVal :=
  let frame_time_sum :=
    frame_buffer.foldl (fun acc frame => acc + frame.frame_time_s now) 0
  FVal.div (.num frame_buffer.length) (.num ((rustRound (frame_time_sum * 100) : ℚ) / 100))

/-- `Context::average_frame_rate()`: the fold-summed contents of the rate
buffer divided by its length. -/
def Context.average_frame_rate (frame_rate_buffer : List FVal) : FVal :=
  let frame_rate_sum := frame_rate_buffer.foldl FVal.add (.num 0)
  FVal.div frame_rate_sum (.num frame_rate_buffer.length)

/-- The frame-history push performed by `Context::finalize()`:
`push_back` the frame, then `pop_front` once if the length now exceeds
`FRAME_BUFFER_LENGTH`.  The `VecDeque` front is the list head. -/
def Context.pushCapped (frame_buffer : List Frame) (frame : Frame) : List Frame :=
  let b := frame_buffer ++ [frame]
  if FRAME_BUFFER_LENGTH < b.length then b.tail else b

/-- The timing fields of `Context` that `finalize()` touches. -/
structure TimingState where
  frame_buffer : List Frame
  frame_current : Frame
  frame_rate_buffer : List FVal

/-- `Context::finalize()` (minus the GPU-side `request_redraw` call): end the
current frame, push it into the capped frame history, start a new frame, and
push the recomputed instantaneous rate into the capped rate history. -/
def Context.finalize (s : TimingState) (now : ℚ) : TimingState :=
  let frame_current := { s.frame_current with end_time := Timestamp.now now }
  let frame_buffer := Context.pushCapped s.frame_buffer frame_current
  let frame_rate_buffer := s.frame_rate_buffer ++ [Context.frame_rate frame_buffer now]
  let frame_rate_buffer :=
    if FRAME_RATE_BUFFER_LENGTH < frame_rate_buffer.length then frame_rate_buffer.tail
    else frame_rate_buffer
  { frame_buffer := frame_buffer
    frame_current := Frame.new now
    frame_rate_buffer := frame_rate_buffer }

/-- The spec's `round2`: round to 2 decimal places (§4.3 `mean_rate`). -/
def round2 (q : ℚ) : ℚ := (rustRound (q * 100) : ℚ) / 100

/- ## The instance grid (src/window/context.rs, src/model/instance.rs)

Grid positions are exact rationals, so `Instance` is embedded over ℚ. -/

/-- A `cgmath::Vector3<f32>` whose components are exactly rational. -/
structure Vec3Q where
  x : ℚ
  y : ℚ
  z : ℚ
deriving DecidableEq

/-- cgmath `Vector3::is_zero()`: componentwise comparison with zero. -/
def Vec3Q.isZero (v : Vec3Q) : Bool := v == ⟨0, 0, 0⟩

/-- The two quaternions built by the grid generator, by constructor:
`Quaternion::from_axis_angle(Vector3::unit_z(), Deg(0.0))` for the zero
position, and `Quaternion::from_axis_angle(position.normalize(), Deg(45.0))`
otherwise.  The second constructor records the unnormalized position; the
normalization divides by an irrational magnitude and no claim reads the
axis components. -/
inductive Rotation where
  | unitZZeroDeg : Rotation
  | normalizedPos45Deg : Vec3Q → Rotation
deriving DecidableEq

/-- `Instance` (src/model/instance.rs): position plus rotation. -/
structure Instance where
  position : Vec3Q
  rotation : Rotation
deriving DecidableEq

/-- `Instance::new(position, rotation)`. -/
def Instance.new (position : Vec3Q) (rotation : Rotation) : Instance :=
  ⟨position, rotation⟩

def NUM_INSTANCES_PER_ROW : ℕ := 10

def SPACE_BETWEEN_MODELS : ℚ := 3

/-- One cell of the instance grid from `Context::new` (src/window/context.rs):
`x = SPACE_BETWEEN_MODELS * (x as f32 - NUM_INSTANCES_PER_ROW as f32 / 2.0)`,
likewise for `z`, `y = 0`; rotation by the `is_zero` branch. -/
def gridInstance (x z : ℕ) : Instance :=
  let xf : ℚ := SPACE_BETWEEN_MODELS * ((x : ℚ) - (NUM_INSTANCES_PER_ROW : ℚ) / 2)
  let zf : ℚ := SPACE_BETWEEN_MODELS * ((z : ℚ) - (NUM_INSTANCES_PER_ROW : ℚ) / 2)
  let position : Vec3Q := ⟨xf, 0, zf⟩
  let rotation :=
    if position.isZero then Rotation.unitZZeroDeg
    else Rotation.normalizedPos45Deg position
  Instance.new position rotation

/-- The instance grid from `Context::new`:
`(0..10).flat_map(|z| (0..10).map(move |x| ...)).collect()`. -/
def contextInstances : List Instance :=
  (List.range NUM_INSTANCES_PER_ROW).flatMap (fun z =>
    (List.range NUM_INSTANCES_PER_ROW).map (fun x => gridInstance x z))

/-- Indexing a `flatMap` of constant-length blocks: entry `i*n + x` is
entry `x` of block `i`. -/
theorem flatMap_get_blocks {α : Type} (n : ℕ) (f : ℕ → List α)
    (hlen : ∀ z, (f z).length = n) :
    ∀ (zs : List ℕ) (i x zv : ℕ), x < n → zs.get? i = some zv →
      (zs.flatMap f).get? (i * n + x) = (f zv).get? x := by
  intro zs
  induction zs with
  | nil => intro i x zv _ hz; simp at hz
  | cons z zs ih =>
    intro i x zv hx hz
    rw [List.flatMap_cons]
    cases i with
    | zero =>
      simp only [List.get?_cons_zero, Option.some.injEq] at hz
      subst hz
      simp only [Nat.zero_mul, Nat.zero_add]
      rw [List.get?_append]
      rw [hlen z]; exact hx
    | succ j =>
      have hge : (f z).length ≤ (j + 1) * n + x := by rw [hlen z]; nlinarith
      rw [List.get?_append_right hge]
      have harith : (j + 1) * n + x - (f z).length = j * n + x := by
        rw [hlen z]; ring_nf; omega
      rw [harith]
      exact ih j x zv hx (by simpa using hz)

/- ## Real-valued vectors (cgmath `Vector3<f32>`/`Point3<f32>` over ℝ)

The camera controller takes square roots (`magnitude`), so this part of the
embedding lives over ℝ. -/

/-- A 3-component vector / point over ℝ. -/
structure Vec3 where
  x : ℝ
  y : ℝ
  z : ℝ

def Vec3.add (a b : Vec3) : Vec3 := ⟨a.x + b.x, a.y + b.y, a.z + b.z⟩

def Vec3.sub (a b : Vec3) : Vec3 := ⟨a.x - b.x, a.y - b.y, a.z - b.z⟩

/-- cgmath `v * s` (componentwise scale by a scalar on the right). -/
def Vec3.smul (v : Vec3) (s : ℝ) : Vec3 := ⟨v.x * s, v.y * s, v.z * s⟩

def Vec3.dot (a b : Vec3) : ℝ := a.x * b.x + a.y * b.y + a.z * b.z

def Vec3.cross (a b : Vec3) : Vec3 :=
  ⟨a.y * b.z - a.z * b.y, a.z * b.x - a.x * b.z, a.x * b.y - a.y * b.x⟩

/-- cgmath `magnitude()`: `sqrt(dot(self, self))`. -/
noncomputable def Vec3.magnitude (v : Vec3) : ℝ := Real.sqrt (v.dot v)

/-- cgmath `normalize()`: `self * (1 / magnitude)`. -/
noncomputable def Vec3.normalize (v : Vec3) : Vec3 := v.smul (1 / v.magnitude)

/- ## Camera and camera controller
(src/window/camera/mod.rs, src/window/camera/controller.rs) -/

/-- `Camera` (src/window/camera/mod.rs). -/
structure Camera where
  eye : Vec3
  target : Vec3
  up : Vec3
  aspect : ℝ
  fov_y : ℝ
  z_near : ℝ
  z_far : ℝ

/-- `Camera::set_aspect(width, height)`: `aspect = width / height`. -/
noncomputable def Camera.set_aspect (self : Camera) (width height : ℝ) : Camera :=
  { self with aspect := width / height }

/-- `Camera::translate(translation)`: `eye += translation`. -/
def Camera.translate (self : Camera) (translation : Vec3) : Camera :=
  { self with eye := self.eye.add translation }

/-- `CameraController` (src/window/camera/controller.rs): speed plus the four
pressed flags. -/
structure CameraController where
  speed : ℝ
  is_forward_pressed : Bool
  is_backward_pressed : Bool
  is_left_pressed : Bool
  is_right_pressed : Bool

open Classical in
/-- `CameraController::update_camera(camera, previous_frame)` with
`speed = self.speed * previous_frame.delta_time()` passed in as `dt`:
 1. move forward, guarded by `forward_magnitude > speed`;
 2. move backward, unguarded;
 3. recompute `forward`/`forward_mag` from the possibly-moved eye
    (`right` uses the original forward direction and the camera's up);
 4. right/left re-seat the eye on the circle of radius `forward_mag`
    around the target. -/
noncomputable def CameraController.update_camera
    (self : CameraController) (camera : Camera) (dt : ℝ) : Camera :=
  let forward := camera.target.sub camera.eye
  let forward_normalized := forward.normalize
  let forward_magnitude := forward.magnitude
  let speed := self.speed * dt
  let camera :=
    if self.is_forward_pressed ∧ forward_magnitude > speed then
      { camera with eye := camera.eye.add (forward_normalized.smul speed) }
    else camera
  let camera :=
    if self.is_backward_pressed then
      { camera with eye := camera.eye.sub (forward_normalized.smul speed) }
    else camera
  let right := forward_normalized.cross camera.up
  let forward2 := camera.target.sub camera.eye
  let forward_mag := forward2.magnitude
  let camera :=
    if self.is_right_pressed then
      { camera with
        eye := camera.target.sub (((forward2.sub (right.smul speed)).normalize).smul forward_mag) }
    else camera
  let camera :=
    if self.is_left_pressed then
      { camera with
        eye := camera.target.sub (((forward2.add (right.smul speed)).normalize).smul forward_mag) }
    else camera
  camera

/- ## Resize and update (src/window/context.rs) -/

/-- The `Context` fields that `resize` reads or writes: the stored size, the
surface configuration's dimensions, the camera, and the depth texture
(tracked by the dimensions it was created at). -/
structure RenderState where
  size : ℕ × ℕ
  config_width : ℕ
  config_height : ℕ
  camera : Camera
  depth_texture : ℕ × ℕ

/-- `Context::resize(new_size)`: guarded by `width > 1 && height > 1`; when it
fires, store the size, reconfigure the surface at the new dimensions, update
the camera aspect from the config dimensions, rebuild the depth texture. -/
noncomputable def Context.resize (s : RenderState) (new_size : ℕ × ℕ) : RenderState :=
  if 1 < new_size.1 ∧ 1 < new_size.2 then
    let s := { s with
      size := new_size
      config_width := new_size.1
      config_height := new_size.2 }
    let s := { s with camera := s.camera.set_aspect (s.config_width : ℝ) (s.config_height : ℝ) }
    { s with depth_texture := (s.config_width, s.config_height) }
  else s

def CAMERA_ROTATION_PER_SECOND : ℝ := 30

/-- The action of cgmath `Quaternion::from_axis_angle(Vector3::unit_y(), Deg θ)`
on a vector: rotation about the y axis by `θ` degrees. -/
noncomputable def rotateY (angleDeg : ℝ) (v : Vec3) : Vec3 :=
  let θ := angleDeg * Real.pi / 180
  ⟨v.x * Real.cos θ + v.z * Real.sin θ, v.y, -v.x * Real.sin θ + v.z * Real.cos θ⟩

/-- `Context::update()`: unwraps `frame_buffer.back()` (the last element) —
`none` models the panic on an empty history — then advances the camera by the
controller using the last frame's `delta_time` and rotates the light position
about the y axis by `CAMERA_ROTATION_PER_SECOND * delta_time` degrees.  The
GPU buffer re-uploads are external effects; the updated camera and light
position are returned. -/
noncomputable def Context.update (frame_buffer : List Frame)
    (camera_controller : CameraController) (camera : Camera)
    (light_position : Vec3) (now : ℚ) : Option (Camera × Vec3) :=
  match frame_buffer.getLast? with
  | none => none
  | some last_frame =>
      let dt : ℝ := ((last_frame.delta_time now : ℚ) : ℝ)
      let camera := camera_controller.update_camera camera dt
      let rotation_angle := CAMERA_ROTATION_PER_SECOND * dt
      let light_position := rotateY rotation_angle light_position
      some (camera, light_position)

/- ## Vector algebra lemmas -/

theorem Vec3.eq_of_fields {a b : Vec3} (hx : a.x = b.x) (hy : a.y = b.y)
    (hz : a.z = b.z) : a = b := by
  cases a; cases b; simp_all

theorem Vec3.smul_smul (v : Vec3) (a b : ℝ) : (v.smul a).smul b = v.smul (a * b) := by
  refine Vec3.eq_of_fields ?_ ?_ ?_ <;> simp [Vec3.smul] <;> ring

theorem Vec3.sub_sub_cancel (t v : Vec3) : t.sub (t.sub v) = v := by
  refine Vec3.eq_of_fields ?_ ?_ ?_ <;> simp [Vec3.sub]

theorem Vec3.dot_self_nonneg (v : Vec3) : 0 ≤ v.dot v := by
  simp only [Vec3.dot]
  nlinarith [mul_self_nonneg v.x, mul_self_nonneg v.y, mul_self_nonneg v.z]

theorem Vec3.dot_self_pos (v : Vec3) (h : v ≠ ⟨0, 0, 0⟩) : 0 < v.dot v := by
  rcases v with ⟨a, b, c⟩
  simp only [Vec3.dot]
  by_contra hle
  push_neg at hle
  have ha : a * a = 0 := le_antisymm (by nlinarith [mul_self_nonneg b, mul_self_nonneg c])
    (mul_self_nonneg a)
  have hb : b * b = 0 := le_antisymm (by nlinarith [mul_self_nonneg a, mul_self_nonneg c])
    (mul_self_nonneg b)
  have hc : c * c = 0 := le_antisymm (by nlinarith [mul_self_nonneg a, mul_self_nonneg b])
    (mul_self_nonneg c)
  exact h (by rw [mul_self_eq_zero.mp ha, mul_self_eq_zero.mp hb, mul_self_eq_zero.mp hc])

theorem Vec3.magnitude_nonneg (v : Vec3) : 0 ≤ v.magnitude := Real.sqrt_nonneg _

theorem Vec3.magnitude_pos (v : Vec3) (h : 0 < v.dot v) : 0 < v.magnitude :=
  Real.sqrt_pos.mpr h

theorem Vec3.magnitude_smul (v : Vec3) (c : ℝ) :
    (v.smul c).magnitude = |c| * v.magnitude := by
  simp only [Vec3.magnitude, Vec3.smul, Vec3.dot]
  have h : v.x * c * (v.x * c) + v.y * c * (v.y * c) + v.z * c * (v.z * c)
      = c ^ 2 * (v.x * v.x + v.y * v.y + v.z * v.z) := by ring
  rw [h, Real.sqrt_mul (sq_nonneg c), Real.sqrt_sq_eq_abs]

theorem Vec3.normalize_smul_magnitude (w : Vec3) (m : ℝ) (hw : 0 < w.dot w)
    (hm : 0 ≤ m) : ((w.normalize).smul m).magnitude = m := by
  have hmagpos : 0 < w.magnitude := w.magnitude_pos hw
  rw [Vec3.normalize, Vec3.smul_smul, Vec3.magnitude_smul,
    abs_of_nonneg (by positivity)]
  field_simp

theorem Vec3.dot_cross_smul_self (f u : Vec3) (a : ℝ) :
    f.dot (((f.smul a).cross) u) = 0 := by
  simp only [Vec3.dot, Vec3.smul, Vec3.cross]
  ring

theorem Vec3.ne_zero_of_sub_ne (t e : Vec3) (h : e ≠ t) : t.sub e ≠ ⟨0, 0, 0⟩ := by
  intro h0
  apply h
  have hx := congrArg Vec3.x h0
  have hy := congrArg Vec3.y h0
  have hz := congrArg Vec3.z h0
  simp only [Vec3.sub] at hx hy hz
  exact (Vec3.eq_of_fields (by linarith) (by linarith) (by linarith))

/- ## Reduction of `update_camera` at fixed flag configurations -/

theorem update_camera_forward_only_moves (ctrl : CameraController) (cam : Camera)
    (dt : ℝ) (hf : ctrl.is_forward_pressed = true)
    (hb : ctrl.is_backward_pressed = false) (hl : ctrl.is_left_pressed = false)
    (hr : ctrl.is_right_pressed = false)
    (hmag : (cam.target.sub cam.eye).magnitude > ctrl.speed * dt) :
    ctrl.update_camera cam dt
      = { cam with
          eye := cam.eye.add
            (((cam.target.sub cam.eye).normalize).smul (ctrl.speed * dt)) } := by
  simp [CameraController.update_camera, hf, hb, hl, hr, hmag]

theorem update_camera_forward_only_stays (ctrl : CameraController) (cam : Camera)
    (dt : ℝ) (hf : ctrl.is_forward_pressed = true)
    (hb : ctrl.is_backward_pressed = false) (hl : ctrl.is_left_pressed = false)
    (hr : ctrl.is_right_pressed = false)
    (hmag : ¬ ((cam.target.sub cam.eye).magnitude > ctrl.speed * dt)) :
    ctrl.update_camera cam dt = cam := by
  simp [CameraController.update_camera, hf, hb, hl, hr, hmag]

theorem update_camera_backward_only (ctrl : CameraController) (cam : Camera)
    (dt : ℝ) (hf : ctrl.is_forward_pressed = false)
    (hb : ctrl.is_backward_pressed = true) (hl : ctrl.is_left_pressed = false)
    (hr : ctrl.is_right_pressed = false) :
    ctrl.update_camera cam dt
      = { cam with
          eye := cam.eye.sub
            (((cam.target.sub cam.eye).normalize).smul (ctrl.speed * dt)) } := by
  simp [CameraController.update_camera, hf, hb, hl, hr]

theorem update_camera_right_only (ctrl : CameraController) (cam : Camera)
    (dt : ℝ) (hf : ctrl.is_forward_pressed = false)
    (hb : ctrl.is_backward_pressed = false) (hl : ctrl.is_left_pressed = false)
    (hr : ctrl.is_right_pressed = true) :
    ctrl.update_camera cam dt
      = { cam with
          eye := cam.target.sub
            ((((cam.target.sub cam.eye).sub
                (((((cam.target.sub cam.eye).normalize).cross cam.up)).smul
                  (ctrl.speed * dt))).normalize).smul
              (cam.target.sub cam.eye).magnitude) } := by
  simp [CameraController.update_camera, hf, hb, hl, hr]

theorem update_camera_left_only (ctrl : CameraController) (cam : Camera)
    (dt : ℝ) (hf : ctrl.is_forward_pressed = false)
    (hb : ctrl.is_backward_pressed = false) (hl : ctrl.is_left_pressed = true)
    (hr : ctrl.is_right_pressed = false) :
    ctrl.update_camera cam dt
      = { cam with
          eye := cam.target.sub
            ((((cam.target.sub cam.eye).add
                (((((cam.target.sub cam.eye).normalize).cross cam.up)).smul
                  (ctrl.speed * dt))).normalize).smul
              (cam.target.sub cam.eye).magnitude) } := by
  simp [CameraController.update_camera, hf, hb, hl, hr]

/- ## List lemmas for the frame history -/

theorem pushCapped_foldl_drop (l : List Frame) :
    ∀ acc : List Frame, acc.length ≤ FRAME_BUFFER_LENGTH →
      List.foldl Context.pushCapped acc l
        = (acc ++ l).drop (acc.length + l.length - FRAME_BUFFER_LENGTH) := by
  induction l with
  | nil =>
    intro acc h
    simp [Nat.sub_eq_zero_of_le h]
  | cons x l ih =>
    intro acc h
    rw [List.foldl_cons]
    by_cases hlt : acc.length < FRAME_BUFFER_LENGTH
    · have hpush : Context.pushCapped acc x = acc ++ [x] := by
        simp only [Context.pushCapped]
        rw [if_neg]
        simp only [List.length_append, List.length_cons, List.length_nil]
        omega
      rw [hpush, ih (acc ++ [x])
        (by simp only [List.length_append, List.length_cons, List.length_nil]; omega)]
      have hlist : (acc ++ [x]) ++ l = acc ++ (x :: l) := by simp
      have hcount : (acc ++ [x]).length + l.length = acc.length + (x :: l).length := by
        simp only [List.length_append, List.length_cons, List.length_nil]
        omega
      rw [hlist, hcount]
    · have hacc : acc.length = FRAME_BUFFER_LENGTH := le_antisymm h (not_lt.mp hlt)
      have hpush : Context.pushCapped acc x = (acc ++ [x]).drop 1 := by
        simp only [Context.pushCapped]
        rw [if_pos]
        · rw [List.drop_one]
        · simp only [List.length_append, List.length_cons, List.length_nil]
          omega
      have hlen1 : ((acc ++ [x]).drop 1).length = FRAME_BUFFER_LENGTH := by
        simp only [List.length_drop, List.length_append, List.length_cons, List.length_nil]
        omega
      rw [hpush, ih ((acc ++ [x]).drop 1) (le_of_eq hlen1), hlen1]
      have hidx1 : FRAME_BUFFER_LENGTH + l.length - FRAME_BUFFER_LENGTH = l.length := by omega
      have hidx2 : acc.length + (x :: l).length - FRAME_BUFFER_LENGTH = l.length + 1 := by
        simp only [List.length_cons]
        omega
      rw [hidx1, hidx2]
      have h1 : ((acc ++ [x]).drop 1) ++ l = ((acc ++ [x]) ++ l).drop 1 :=
        (List.drop_append_of_le_length
          (by simp only [List.length_append, List.length_cons, List.length_nil]; omega)).symm
      rw [h1, List.drop_drop, Nat.add_comm 1 l.length]
      simp

theorem foldl_add_frame_times (now : ℚ) (l : List Frame) :
    ∀ a : ℚ, l.foldl (fun acc frame => acc + frame.frame_time_s now) a
      = a + (l.map (fun frame => frame.frame_time_s now)).sum := by
  induction l with
  | nil => intro a; simp
  | cons x t ih =>
    intro a
    simp only [List.foldl_cons, List.map_cons, List.sum_cons, ih]
    ring

/- ## Distance change under the guarded forward step -/

theorem forward_step_distance (t e : Vec3) (s : ℝ)
    (hmag : s < (t.sub e).magnitude) (hs : 0 < s) :
    (t.sub (e.add (((t.sub e).normalize).smul s))).magnitude
      = (t.sub e).magnitude - s := by
  have hmagpos : 0 < (t.sub e).magnitude := lt_trans hs hmag
  have h1 : t.sub (e.add (((t.sub e).normalize).smul s))
      = (t.sub e).smul (1 - s / (t.sub e).magnitude) := by
    refine Vec3.eq_of_fields ?_ ?_ ?_ <;>
      simp only [Vec3.sub, Vec3.add, Vec3.smul, Vec3.normalize] <;> ring
  rw [h1, Vec3.magnitude_smul, abs_of_nonneg
    (by have := le_of_lt ((div_lt_one hmagpos).mpr hmag); linarith)]
  have hne : (t.sub e).magnitude ≠ 0 := ne_of_gt hmagpos
  field_simp

/- ## Claim theorems -/

/-- C1 (code bug): at the exactly-rational camera with fovy = 90°, aspect = 1,
z_near = 1, z_far = 3, eye = (0,0,2), target = origin, up = +Y, the matrix the
`CameraUniform` receives is `correction · (correction · P · V)` — the
`OPENGL_TO_WGPU_MATRIX` factor occurs twice, once inside
`Camera::build_view_projection_matrix` and once more in
`CameraUniform::update_view_projection_matrix` — and it differs from the
single-correction product `correction · P · V` that the claim states. -/
theorem C1_correction_applied_twice :
    update_view_projection_matrix perspective_90_1_1_3 look_at_002_origin_y
      = OPENGL_TO_WGPU_MATRIX.mul (OPENGL_TO_WGPU_MATRIX.mul
          (perspective_90_1_1_3.mul look_at_002_origin_y))
    ∧ update_view_projection_matrix perspective_90_1_1_3 look_at_002_origin_y
      ≠ (OPENGL_TO_WGPU_MATRIX.mul perspective_90_1_1_3).mul look_at_002_origin_y := by
  constructor
  · funext i j
    fin_cases i <;> fin_cases j <;>
      norm_num [update_view_projection_matrix, build_view_projection_matrix, Mat4.mul,
        OPENGL_TO_WGPU_MATRIX, perspective_90_1_1_3, look_at_002_origin_y] <;>
      ring
  · intro h
    have h22 := congrFun (congrFun h 2) 2
    norm_num [update_view_projection_matrix, build_view_projection_matrix, Mat4.mul,
      OPENGL_TO_WGPU_MATRIX, perspective_90_1_1_3, look_at_002_origin_y] at h22

/-- C2 (counterexample): the instance at grid index (0, 0) has position
(-15, 0, -15) — that is 3·(0 − 5) on each axis — not the claimed
3·(0 − 4.5) = -13.5. -/
theorem C2_position_not_centered :
    (contextInstances.get? 0).map Instance.position = some ⟨-15, 0, -15⟩
    ∧ (-15 : ℚ) ≠ SPACE_BETWEEN_MODELS * ((0 : ℚ) - 4.5) := by
  constructor
  · have h := flatMap_get_blocks 10
      (fun zz => (List.range 10).map (fun xx => gridInstance xx zz))
      (fun zz => by simp) (List.range 10) 0 0 0 (by norm_num) (by simp [List.get?_range])
    simp only [NUM_INSTANCES_PER_ROW, contextInstances] at *
    rw [show (0 : ℕ) = 0 * 10 + 0 by norm_num, h]
    norm_num [gridInstance, SPACE_BETWEEN_MODELS, NUM_INSTANCES_PER_ROW, Vec3Q.isZero,
      Instance.new, List.get?_range]
  · norm_num [SPACE_BETWEEN_MODELS]

/-- C2 (amended): the grid built at context creation contains exactly 100
instances, and the instance at grid index (x, z) — list element z·10 + x —
has position whose x and z components equal `3·(index − 5)` for the
respective index (the grid spans -15..12, it is not centered), with y = 0. -/
theorem C2_instance_grid (x z : Fin 10) :
    contextInstances.length = 100
    ∧ (contextInstances.get? ((z : ℕ) * 10 + (x : ℕ))).map Instance.position
        = some ⟨SPACE_BETWEEN_MODELS * (((x : ℕ) : ℚ) - 5), 0,
                SPACE_BETWEEN_MODELS * (((z : ℕ) : ℚ) - 5)⟩ := by
  refine ⟨rfl, ?_⟩
  have h := flatMap_get_blocks 10
    (fun zz => (List.range 10).map (fun xx => gridInstance xx zz))
    (fun zz => by simp) (List.range 10) (z : ℕ) (x : ℕ) (z : ℕ) x.isLt
    (by simp [List.get?_range, z.isLt])
  simp only [NUM_INSTANCES_PER_ROW, contextInstances] at *
  rw [h, List.get?_map, List.get?_range x.isLt]
  norm_num [gridInstance, Instance.new, NUM_INSTANCES_PER_ROW, SPACE_BETWEEN_MODELS]

/-- C3 (counterexample): a run with exactly one completed frame — fewer than
128 — that took 1 s reports `frame_rate() = 1`, not NaN. -/
theorem C3_short_run_not_nan :
    ([(⟨Timestamp.now 0, Timestamp.now 1⟩ : Frame)] : List Frame).length < 128
    ∧ Context.frame_rate [⟨Timestamp.now 0, Timestamp.now 1⟩] 2 = FVal.num 1
    ∧ FVal.num 1 ≠ FVal.nan := by
  refine ⟨by norm_num, ?_, by simp⟩
  norm_num [Context.frame_rate, rustRound, FVal.div, List.foldl, Frame.frame_time_s,
    Timestamp.delta, Timestamp.elapsed, Timestamp.now]

/-- C3 (amended): `frame_rate()` and `average_frame_rate()` return NaN when
zero frames have completed — both histories empty — because both divide by
zero with a zero numerator; NaN is not guaranteed throughout the first 128
frames. -/
theorem C3_empty_history_nan (now : ℚ) :
    Context.frame_rate [] now = FVal.nan
    ∧ Context.average_frame_rate [] = FVal.nan := by
  constructor
  · norm_num [Context.frame_rate, rustRound, FVal.div]
  · norm_num [Context.average_frame_rate, FVal.div, List.foldl]

/-- C4: pushing any 200 frames through the `finalize()` history push into the
capacity-128 frame history leaves exactly the last 128 frames pushed, in push
order (oldest first), and the history has length 128; eviction is strict
FIFO. -/
theorem C4_fifo_eviction (frames : List Frame) (h : frames.length = 200) :
    List.foldl Context.pushCapped [] frames = frames.drop 72
    ∧ (List.foldl Context.pushCapped [] frames).length = 128 := by
  have key := pushCapped_foldl_drop frames [] (by simp [FRAME_BUFFER_LENGTH])
  simp only [List.nil_append, List.length_nil, Nat.zero_add] at key
  rw [key, h]
  constructor
  · norm_num [FRAME_BUFFER_LENGTH]
  · simp only [List.length_drop, h, FRAME_BUFFER_LENGTH]

/-- C4 witness: the concrete sequence of 200 frames started at t = 0..199. -/
theorem C4_fifo_eviction_witness :
    ((List.range 200).map (fun (i : ℕ) => Frame.new (i : ℚ))).length = 200
    ∧ List.foldl Context.pushCapped []
        ((List.range 200).map (fun (i : ℕ) => Frame.new (i : ℚ)))
      = ((List.range 200).map (fun (i : ℕ) => Frame.new (i : ℚ))).drop 72 := by
  have hl : ((List.range 200).map (fun (i : ℕ) => Frame.new (i : ℚ))).length = 200 := by
    rw [List.length_map, List.length_range]
  exact ⟨hl, (C4_fifo_eviction _ hl).1⟩

/-- C5: `frame_rate()` equals the number of stored frames divided by
`round2` of the sum of their `frame_time_s` values — the rounding to two
decimal places is applied to the sum before the division. -/
theorem C5_frame_rate_rounds_sum_first (frames : List Frame) (now : ℚ) :
    Context.frame_rate frames now
      = FVal.div (FVal.num frames.length)
          (FVal.num (round2 ((frames.map (fun f => f.frame_time_s now)).sum))) := by
  simp only [Context.frame_rate, round2, foldl_add_frame_times now frames 0, zero_add]

/-- C6: with only the forward flag pressed, if |target − eye| > speed·dt the
eye advances by exactly `normalize(target − eye) · speed·dt` (and, when
speed·dt > 0, the distance to the target shrinks to |target − eye| − speed·dt,
i.e. strictly toward the target); if |target − eye| ≤ speed·dt the camera is
left unchanged.  With only the backward flag pressed the eye moves by
`−normalize(target − eye) · speed·dt` with no magnitude guard. -/
theorem C6_forward_guard_and_backward (ctrl : CameraController) (cam : Camera)
    (dt : ℝ) :
    (ctrl.is_forward_pressed = true → ctrl.is_backward_pressed = false →
     ctrl.is_left_pressed = false → ctrl.is_right_pressed = false →
      ((cam.target.sub cam.eye).magnitude > ctrl.speed * dt →
        (ctrl.update_camera cam dt).eye
          = cam.eye.add (((cam.target.sub cam.eye).normalize).smul (ctrl.speed * dt))
        ∧ (0 < ctrl.speed * dt →
            (cam.target.sub (ctrl.update_camera cam dt).eye).magnitude
              = (cam.target.sub cam.eye).magnitude - ctrl.speed * dt))
      ∧ ((cam.target.sub cam.eye).magnitude ≤ ctrl.speed * dt →
          ctrl.update_camera cam dt = cam))
    ∧ (ctrl.is_forward_pressed = false → ctrl.is_backward_pressed = true →
       ctrl.is_left_pressed = false → ctrl.is_right_pressed = false →
        (ctrl.update_camera cam dt).eye
          = cam.eye.sub (((cam.target.sub cam.eye).normalize).smul (ctrl.speed * dt))) := by
  refine ⟨fun hf hb hl hr => ⟨fun hmag => ?_, fun hle => ?_⟩, fun hf hb hl hr => ?_⟩
  · have heq := update_camera_forward_only_moves ctrl cam dt hf hb hl hr hmag
    refine ⟨by rw [heq], fun hs => ?_⟩
    rw [heq]
    exact forward_step_distance cam.target cam.eye (ctrl.speed * dt) hmag hs
  · exact update_camera_forward_only_stays ctrl cam dt hf hb hl hr (not_lt.mpr hle)
  · rw [update_camera_backward_only ctrl cam dt hf hb hl hr]

/-- C6 witness: camera at eye (0,0,2) aimed at the origin, controller speed 1,
dt = 1, only forward pressed; |target − eye| = 2 > 1 = speed·dt and the eye
advances by the unit view direction. -/
theorem C6_forward_guard_and_backward_witness :
    ((⟨0, 0, 0⟩ : Vec3).sub (⟨0, 0, 2⟩ : Vec3)).magnitude > (1 : ℝ) * 1
    ∧ (CameraController.update_camera ⟨1, true, false, false, false⟩
        ⟨⟨0, 0, 2⟩, ⟨0, 0, 0⟩, ⟨0, 1, 0⟩, 1, 45, 1, 100⟩ 1).eye
      = (⟨0, 0, 2⟩ : Vec3).add
          ((((⟨0, 0, 0⟩ : Vec3).sub (⟨0, 0, 2⟩ : Vec3)).normalize).smul ((1 : ℝ) * 1)) := by
  have h4 : ((⟨0, 0, 0⟩ : Vec3).sub (⟨0, 0, 2⟩ : Vec3)).dot
      ((⟨0, 0, 0⟩ : Vec3).sub (⟨0, 0, 2⟩ : Vec3)) = 4 := by
    norm_num [Vec3.sub, Vec3.dot]
  have hmagval : ((⟨0, 0, 0⟩ : Vec3).sub (⟨0, 0, 2⟩ : Vec3)).magnitude = 2 := by
    rw [Vec3.magnitude, h4, show (4 : ℝ) = 2 ^ 2 by norm_num,
      Real.sqrt_sq (by norm_num : (0 : ℝ) ≤ 2)]
  have hmag : ((⟨0, 0, 0⟩ : Vec3).sub (⟨0, 0, 2⟩ : Vec3)).magnitude > (1 : ℝ) * 1 := by
    rw [hmagval]; norm_num
  exact ⟨hmag, (((C6_forward_guard_and_backward ⟨1, true, false, false, false⟩
    ⟨⟨0, 0, 2⟩, ⟨0, 0, 0⟩, ⟨0, 1, 0⟩, 1, 45, 1, 100⟩ 1).1 rfl rfl rfl rfl).1 hmag).1⟩

/-- C7: with eye ≠ target and only the right flag (resp. only the left flag)
pressed, `update_camera` preserves the distance |target − eye| exactly: the
eye is re-seated on the circle of the original radius around the target. -/
theorem C7_strafe_preserves_distance (ctrl : CameraController) (cam : Camera)
    (dt : ℝ) (hne : cam.eye ≠ cam.target) :
    (ctrl.is_forward_pressed = false → ctrl.is_backward_pressed = false →
     ctrl.is_left_pressed = false → ctrl.is_right_pressed = true →
      (cam.target.sub (ctrl.update_camera cam dt).eye).magnitude
        = (cam.target.sub cam.eye).magnitude)
    ∧ (ctrl.is_forward_pressed = false → ctrl.is_backward_pressed = false →
       ctrl.is_left_pressed = true → ctrl.is_right_pressed = false →
        (cam.target.sub (ctrl.update_camera cam dt).eye).magnitude
          = (cam.target.sub cam.eye).magnitude) := by
  have hff : 0 < (cam.target.sub cam.eye).dot (cam.target.sub cam.eye) :=
    Vec3.dot_self_pos _ (Vec3.ne_zero_of_sub_ne cam.target cam.eye hne)
  have hfr : (cam.target.sub cam.eye).dot
      (((cam.target.sub cam.eye).normalize).cross cam.up) = 0 := by
    simp only [Vec3.normalize]
    exact Vec3.dot_cross_smul_self (cam.target.sub cam.eye) cam.up _
  have hrr : 0 ≤ ((((cam.target.sub cam.eye).normalize).cross cam.up)).dot
      ((((cam.target.sub cam.eye).normalize).cross cam.up)) := Vec3.dot_self_nonneg _
  constructor
  · intro hf hb hl hr
    rw [update_camera_right_only ctrl cam dt hf hb hl hr]
    show (cam.target.sub (cam.target.sub _)).magnitude = _
    rw [Vec3.sub_sub_cancel]
    refine Vec3.normalize_smul_magnitude _ _ ?_ (Vec3.magnitude_nonneg _)
    have hexp : ((cam.target.sub cam.eye).sub
          (((((cam.target.sub cam.eye).normalize).cross cam.up)).smul (ctrl.speed * dt))).dot
        ((cam.target.sub cam.eye).sub
          (((((cam.target.sub cam.eye).normalize).cross cam.up)).smul (ctrl.speed * dt)))
        = (cam.target.sub cam.eye).dot (cam.target.sub cam.eye)
          - 2 * (ctrl.speed * dt) * ((cam.target.sub cam.eye).dot
              ((((cam.target.sub cam.eye).normalize).cross cam.up)))
          + (ctrl.speed * dt) ^ 2 * (((((cam.target.sub cam.eye).normalize).cross cam.up)).dot
              ((((cam.target.sub cam.eye).normalize).cross cam.up))) := by
      simp only [Vec3.dot, Vec3.sub, Vec3.smul]
      ring
    rw [hexp, hfr]
    nlinarith [mul_nonneg (sq_nonneg (ctrl.speed * dt)) hrr]
  · intro hf hb hl hr
    rw [update_camera_left_only ctrl cam dt hf hb hl hr]
    show (cam.target.sub (cam.target.sub _)).magnitude = _
    rw [Vec3.sub_sub_cancel]
    refine Vec3.normalize_smul_magnitude _ _ ?_ (Vec3.magnitude_nonneg _)
    have hexp : ((cam.target.sub cam.eye).add
          (((((cam.target.sub cam.eye).normalize).cross cam.up)).smul (ctrl.speed * dt))).dot
        ((cam.target.sub cam.eye).add
          (((((cam.target.sub cam.eye).normalize).cross cam.up)).smul (ctrl.speed * dt)))
        = (cam.target.sub cam.eye).dot (cam.target.sub cam.eye)
          + 2 * (ctrl.speed * dt) * ((cam.target.sub cam.eye).dot
              ((((cam.target.sub cam.eye).normalize).cross cam.up)))
          + (ctrl.speed * dt) ^ 2 * (((((cam.target.sub cam.eye).normalize).cross cam.up)).dot
              ((((cam.target.sub cam.eye).normalize).cross cam.up))) := by
      simp only [Vec3.dot, Vec3.add, Vec3.smul]
      ring
    rw [hexp, hfr]
    nlinarith [mul_nonneg (sq_nonneg (ctrl.speed * dt)) hrr]

/-- C7 witness: camera at eye (0,0,2) aimed at the origin, only right pressed,
speed·dt = 1; the orbit radius |target − eye| is preserved. -/
theorem C7_strafe_preserves_distance_witness :
    ((⟨0, 0, 2⟩ : Vec3) ≠ (⟨0, 0, 0⟩ : Vec3))
    ∧ ((⟨0, 0, 0⟩ : Vec3).sub
        (CameraController.update_camera ⟨1, false, false, false, true⟩
          ⟨⟨0, 0, 2⟩, ⟨0, 0, 0⟩, ⟨0, 1, 0⟩, 1, 45, 1, 100⟩ 1).eye).magnitude
      = ((⟨0, 0, 0⟩ : Vec3).sub (⟨0, 0, 2⟩ : Vec3)).magnitude := by
  have hne : (⟨0, 0, 2⟩ : Vec3) ≠ (⟨0, 0, 0⟩ : Vec3) := by
    intro h
    have hz := congrArg Vec3.z h
    norm_num at hz
  exact ⟨hne, (C7_strafe_preserves_distance ⟨1, false, false, false, true⟩
    ⟨⟨0, 0, 2⟩, ⟨0, 0, 0⟩, ⟨0, 1, 0⟩, 1, 45, 1, 100⟩ 1 hne).1 rfl rfl rfl rfl⟩

/-- C8: `resize(new_size)` is a no-op — size, surface config, camera and depth
texture all unchanged, no error — whenever either dimension is ≤ 1; when both
dimensions exceed 1 it stores the new size, reconfigures at the new
dimensions, sets the camera aspect to width/height, and rebuilds the depth
texture at the new dimensions. -/
theorem C8_resize_guard (s : RenderState) (new_size : ℕ × ℕ) :
    (new_size.1 ≤ 1 ∨ new_size.2 ≤ 1 → Context.resize s new_size = s)
    ∧ (1 < new_size.1 → 1 < new_size.2 →
        Context.resize s new_size
          = { size := new_size
              config_width := new_size.1
              config_height := new_size.2
              camera := { s.camera with aspect := (new_size.1 : ℝ) / (new_size.2 : ℝ) }
              depth_texture := (new_size.1, new_size.2) }) := by
  constructor
  · intro h
    rw [Context.resize, if_neg]
    omega
  · intro h1 h2
    rw [Context.resize, if_pos ⟨h1, h2⟩]
    rfl

/-- C8 witness: resizing to (1, 5) is a no-op on a concrete 800×600 state;
resizing to (4, 2) sets the camera aspect to 4/2. -/
theorem C8_resize_guard_witness :
    ((1 : ℕ) ≤ 1 ∨ (5 : ℕ) ≤ 1)
    ∧ Context.resize
        ⟨(800, 600), 800, 600, ⟨⟨0, 0, 2⟩, ⟨0, 0, 0⟩, ⟨0, 1, 0⟩, 1, 45, 1, 100⟩, (800, 600)⟩
        (1, 5)
      = ⟨(800, 600), 800, 600, ⟨⟨0, 0, 2⟩, ⟨0, 0, 0⟩, ⟨0, 1, 0⟩, 1, 45, 1, 100⟩, (800, 600)⟩
    ∧ (Context.resize
        ⟨(800, 600), 800, 600, ⟨⟨0, 0, 2⟩, ⟨0, 0, 0⟩, ⟨0, 1, 0⟩, 1, 45, 1, 100⟩, (800, 600)⟩
        (4, 2)).camera.aspect = (4 : ℝ) / 2 := by
  refine ⟨Or.inl le_rfl, (C8_resize_guard _ _).1 (Or.inl le_rfl), ?_⟩
  rw [(C8_resize_guard _ _).2 (by norm_num) (by norm_num)]
  norm_num

/-- C9: a `Frame` whose end was never set (its `end_time` is still empty)
reports `frame_time_s() = 0` regardless of its start time and of the clock,
as a consequence of `delta(a, b)` being zero whenever either operand is
empty. -/
theorem C9_unfinished_frame_time_zero (f : Frame) (a b : Timestamp) (now : ℚ) :
    (f.end_time.is_empty = true → f.frame_time_s now = 0)
    ∧ (a.is_empty = true ∨ b.is_empty = true → a.delta b now = 0) := by
  constructor
  · intro h
    simp [Frame.frame_time_s, Timestamp.delta, h]
  · intro h
    rcases h with h | h <;> simp [Timestamp.delta, h]

/-- C9 witness: a frame begun at t = 3 and never ended reports a zero frame
time at clock 7. -/
theorem C9_unfinished_frame_time_zero_witness :
    ((⟨Timestamp.now 3, Timestamp.empty 3⟩ : Frame).end_time.is_empty = true)
    ∧ (⟨Timestamp.now 3, Timestamp.empty 3⟩ : Frame).frame_time_s 7 = 0 :=
  ⟨rfl, (C9_unfinished_frame_time_zero ⟨Timestamp.now 3, Timestamp.empty 3⟩
    (Timestamp.empty 0) (Timestamp.now 1) 7).1 rfl⟩

/-- C10: `Context::update()` unwraps `frame_buffer.back()`: on an empty frame
history it reaches the unwrap of `None` (modelled as `none`, the panic), and
whenever at least one frame has been pushed it returns a result, so the
panic branch is unreachable under that precondition. -/
theorem C10_update_requires_frame (frame_buffer : List Frame)
    (ctrl : CameraController) (cam : Camera) (lp : Vec3) (now : ℚ) :
    (frame_buffer = [] → Context.update frame_buffer ctrl cam lp now = none)
    ∧ (frame_buffer ≠ [] →
        (Context.update frame_buffer ctrl cam lp now).isSome = true) := by
  constructor
  · intro h
    subst h
    rfl
  · intro h
    obtain ⟨x, hx⟩ := Option.isSome_iff_exists.mp (List.getLast?_isSome.mpr h)
    simp [Context.update, hx]

/-- C10 witness: update on the empty history yields the panic marker; update
after one completed frame succeeds. -/
theorem C10_update_requires_frame_witness :
    Context.update [] ⟨1, false, false, false, false⟩
        ⟨⟨0, 0, 2⟩, ⟨0, 0, 0⟩, ⟨0, 1, 0⟩, 1, 45, 1, 100⟩ ⟨2, 2, 2⟩ 0 = none
    ∧ ([Frame.new 0] ≠ ([] : List Frame))
    ∧ (Context.update [Frame.new 0] ⟨1, false, false, false, false⟩
        ⟨⟨0, 0, 2⟩, ⟨0, 0, 0⟩, ⟨0, 1, 0⟩, 1, 45, 1, 100⟩ ⟨2, 2, 2⟩ 1).isSome = true := by
  refine ⟨(C10_update_requires_frame [] _ _ _ _).1 rfl, by simp, ?_⟩
  exact (C10_update_requires_frame [Frame.new 0] _ _ _ _).2 (by simp)
